import Mathlib

/-!
Shallow embedding of the word-resolution pipeline of txt-ewClassifiers
(`main.go`), together with theorems settling the specification claims.

Conventions of the embedding:
* Go strings are Lean `String`s; per-rune loops become recursion over
  `String.data`.
* Go maps become association lists (`List (key × value)`) with lookup by
  first matching key; Go map-sets (`map[string]bool`) become `List String`
  with membership semantics.
* The remote dictionary lookup of `fetchWordDetails` is a parameter: a
  function from the word to a `RemoteResult`, covering exactly the terminal
  conditions distinguished by the code (any request/transport/status/parse
  failure versus a successfully parsed response from which a `WordCache`
  value was extracted).
* `rand.Intn` draws become an explicit list of pick values, reduced modulo
  the current pool size; Go map iteration order becomes an explicit
  enumeration parameter that must be a permutation of the map's contents.
-/

namespace EWC

/-! ## Character classes (Go `unicode` package, Latin-1 fragment)

The Go code tests `unicode.IsLetter(r)` and `unicode.In(r, unicode.Latin)`.
We model both tables faithfully on the Latin-1 range (code points ≤ 0xFF),
which covers every character class distinction the claims exercise;
code points above 0xFF are outside the model and mapped to `false`. -/

/-- Go `unicode.IsLetter` (category L), restricted to the Latin-1 range:
A–Z, a–z, ª (0xAA), µ (0xB5), º (0xBA), À–Ö, Ø–ö, ø–ÿ. -/
def goIsLetter (c : Char) : Bool :=
  let v := c.toNat
  (0x41 ≤ v && v ≤ 0x5A) || (0x61 ≤ v && v ≤ 0x7A) ||
  v == 0xAA || v == 0xB5 || v == 0xBA ||
  (0xC0 ≤ v && v ≤ 0xD6) || (0xD8 ≤ v && v ≤ 0xF6) || (0xF8 ≤ v && v ≤ 0xFF)

/-- Go `unicode.In(r, unicode.Latin)` (Latin script), restricted to the
Latin-1 range: as `goIsLetter` but without µ (0xB5, Greek script). In
particular space, hyphen and slash are NOT in the Latin script table. -/
def goIsLatin (c : Char) : Bool :=
  let v := c.toNat
  (0x41 ≤ v && v ≤ 0x5A) || (0x61 ≤ v && v ≤ 0x7A) ||
  v == 0xAA || v == 0xBA ||
  (0xC0 ≤ v && v ≤ 0xD6) || (0xD8 ≤ v && v ≤ 0xF6) || (0xF8 ≤ v && v ≤ 0xFF)

/-! ## Text helpers (`main.go` lines 80–167) -/

/-- Loop body of `isEnglishText`: the two early-exit checks of the Go
`for _, r := range text` loop, recursed over the rune sequence. -/
def isEnglishTextAux : List Char → Bool
  | [] => true
  | r :: rs =>
    if !goIsLetter r && r != ' ' && r != '-' && r != '/' then false
    else if !goIsLatin r then false
    else isEnglishTextAux rs

/-- Go `isEnglishText` (lines 80–90). -/
def isEnglishText (text : String) : Bool :=
  isEnglishTextAux text.data

/-- Concatenation of a list of strings (a Go `strings.Builder` run or
`strings.Join` with an empty separator), at character level. -/
def strJoin (ls : List String) : String :=
  String.mk (ls.map String.data).flatten

/-- Go `strings.Join sep`, at character level. -/
def strIntercalate (sep : String) (ls : List String) : String :=
  String.mk (List.intercalate sep.data (ls.map String.data))

/-- Go `strings.ToLower`, at character level (ASCII-faithful). -/
def toLowerStr (s : String) : String :=
  String.mk (s.data.map Char.toLower)

/-- Go `strings.Fields`: split on whitespace runs, dropping empty pieces. -/
def fields (s : String) : List String :=
  ((s.data.splitOnP Char.isWhitespace).map String.mk).filter (fun w => w ≠ "")

/-- One word of `capitalizePhrase`: first character upper-cased, the rest
lower-cased (`strings.ToUpper(string(word[0])) + strings.ToLower(word[1:])`,
modelled at character rather than byte granularity; identical on ASCII). -/
def capitalizeWord (w : String) : String :=
  match w.data with
  | [] => ""
  | c :: rest => String.mk (c.toUpper :: rest.map Char.toLower)

/-- Go `capitalizePhrase` (lines 92–100). -/
def capitalizePhrase (phrase : String) : String :=
  strIntercalate " " ((fields phrase).map capitalizeWord)

/-- Go `capitalizeSentence` (lines 102–107): upper-case the first character,
keep the rest. -/
def capitalizeSentence (sentence : String) : String :=
  match sentence.data with
  | [] => ""
  | c :: rest => String.mk (c.toUpper :: rest)

/-- Go `removeEmptyLines` (lines 145–154): split on newline, keep the lines
whose `strings.TrimSpace` is non-empty (that is, the lines holding at least
one non-whitespace character), rejoin with newlines. -/
def removeEmptyLines (text : String) : String :=
  strIntercalate "\n"
    (((text.data.splitOn '\n').map String.mk).filter
      (fun line => !line.data.all Char.isWhitespace))

/-- Go `deduplicateStrings` (lines 157–167): keep the first occurrence of
each string, preserving order. -/
def deduplicateStrings (slice : List String) : List String :=
  (slice.foldl
    (fun acc item => if acc.contains item then acc else acc ++ [item]) [])

/-! ## Data model (`main.go` lines 26–77) -/

/-- Go `Definition` struct (lines 52–58): one sense of a word. -/
structure Definition where
  PartOfSpeech : String
  Definition : String
  Example : String
  Synonyms : List String
  Antonyms : List String
  deriving Repr, DecidableEq

/-- Go `WordCache` struct (lines 60–66): one positive-cache record. -/
structure WordCache where
  Definitions : List Definition
  Phonetic : String
  Origin : String
  Synonyms : List String
  Antonyms : List String
  deriving Repr, DecidableEq

/-- Go `OutputConfig` struct (lines 32–41). `MaxExampleSentences` is a Go
`int`, so it is modelled as `Int` (negative values are representable). -/
structure OutputConfig where
  IncludePhonetic : Bool
  IncludeOrigin : Bool
  IncludeSynonyms : Bool
  IncludeAntonyms : Bool
  FilterNoExample : Bool
  GenerateExplanations : Bool
  GenerateExampleSentences : Bool
  MaxExampleSentences : Int
  deriving Repr, DecidableEq

/-- Go `QueryConfig` struct (lines 43–45). -/
structure QueryConfig where
  QueryForUnknownWords : Bool
  deriving Repr, DecidableEq

/-- The `defaultConfig` of `loadConfig` (lines 171–180). -/
def defaultOutputConfig : OutputConfig :=
  { IncludePhonetic := true, IncludeOrigin := true, IncludeSynonyms := true,
    IncludeAntonyms := true, FilterNoExample := false,
    GenerateExplanations := true, GenerateExampleSentences := true,
    MaxExampleSentences := 0 }

/-- The `defaultConfig` of `loadQueryConfig` (lines 202–204):
`QueryForUnknownWords` defaults to `false` ("Default to not query unknown
words"). -/
def defaultQueryConfig : QueryConfig :=
  { QueryForUnknownWords := false }

/-! ## Cache state

The Go globals `wordCache : map[string]WordCache` and
`wordUnknown : map[string]bool` (lines 73–74), plus the contents last
written by `saveWordCache` / `saveWordUnknown` (the persisted files). -/

/-- Association-list membership test for the positive cache
(`_, exists := wordCache[word]`). -/
def mapContains (m : List (String × WordCache)) (k : String) : Bool :=
  m.any (fun p => p.1 == k)

/-- Association-list lookup for the positive cache (`wordCache[word]`). -/
def mapLookup (m : List (String × WordCache)) (k : String) : Option WordCache :=
  (m.find? (fun p => p.1 == k)).map (fun p => p.2)

/-- Association-list update for the positive cache
(`wordCache[word] = cachedData`). -/
def mapInsert (m : List (String × WordCache)) (k : String) (v : WordCache) :
    List (String × WordCache) :=
  (k, v) :: m.filter (fun p => p.1 ≠ k)

/-- Set insertion for the negative cache (`wordUnknown[word] = true`). -/
def setInsert (s : List String) (w : String) : List String :=
  if w ∈ s then s else w :: s

/-- Set removal for the negative cache (`delete(wordUnknown, word)`). -/
def setErase (s : List String) (w : String) : List String :=
  s.filter (fun x => x ≠ w)

/-- The mutable cache state of the resolver: in-memory positive cache and
negative cache, plus the last persisted snapshot of each file. -/
structure ResolverState where
  wordCache : List (String × WordCache)
  wordUnknown : List String
  savedCache : List (String × WordCache)
  savedUnknown : List String
  deriving Repr, DecidableEq

/-- A state whose caches and persisted files are all empty. -/
def emptyState : ResolverState :=
  { wordCache := [], wordUnknown := [], savedCache := [], savedUnknown := [] }

/-- Lines 420–422 / 432–434 / 443–445 / 550–552 of `fetchWordDetails`:
`wordUnknown[word] = true` followed by `saveWordUnknown()`. -/
def markUnknown (st : ResolverState) (word : String) : ResolverState :=
  let u := setInsert st.wordUnknown word
  { st with wordUnknown := u, savedUnknown := u }

/-- Lines 540–548 of `fetchWordDetails`: `wordCache[word] = cachedData`,
`saveWordCache()`, then if the word was in `wordUnknown`, `delete` it and
`saveWordUnknown()`. -/
def addKnown (st : ResolverState) (word : String) (data : WordCache) : ResolverState :=
  let c := mapInsert st.wordCache word data
  let st1 := { st with wordCache := c, savedCache := c }
  if word ∈ st1.wordUnknown then
    let u := setErase st1.wordUnknown word
    { st1 with wordUnknown := u, savedUnknown := u }
  else st1

/-! ## Remote lookup model

Lines 416–447 of `fetchWordDetails` distinguish exactly two terminal shapes:
every request-construction, transport, non-OK-status or JSON-parse failure
(including an empty top-level array) takes an early `return` after marking
the word unknown, and a successfully parsed response is reduced by the
extraction code of lines 450–537 to a `WordCache` value (whose `Definitions`
may still be empty). The remote service is therefore modelled as a function
from the looked-up word to one of those two shapes. -/

/-- Outcome of one remote dictionary lookup, as distinguished by the code. -/
inductive RemoteResult where
  | failure
  | success (data : WordCache)
  deriving Repr, DecidableEq

/-! ## Output formatting (`fetchWordDetails` lines 557–610) -/

/-- The early-return string of the failure paths
(`"%s\n\tNo details available.\n"` with the capitalized word). -/
def noDetails (word : String) : String :=
  capitalizePhrase word ++ "\n\tNo details available.\n"

/-- The definition-selection and numbering of the rendering loop
(lines 580–585): each definition is paired with `i + 1` for its position
`i` in the full `Definitions` list; when `FilterNoExample` is set,
definitions with an empty example are skipped (`continue`) WITHOUT
renumbering the rest. -/
def formatEntries (cfg : OutputConfig) (defs : List Definition) :
    List (Nat × Definition) :=
  defs.enum.filterMap (fun p =>
    if cfg.FilterNoExample && p.2.Example == "" then none
    else some (p.1 + 1, p.2))

/-- The per-definition text of the rendering loop (lines 587–607). -/
def renderEntry (cfg : OutputConfig) (capitalized : String)
    (e : Nat × Definition) : String :=
  "\t" ++ capitalized ++ " " ++ toString e.1 ++ ", " ++ e.2.PartOfSpeech ++
      ": " ++ e.2.Definition ++ "\n" ++
  (if e.2.Example ≠ "" then
    "\t\t" ++ capitalized ++ " " ++ toString e.1 ++ " Example: " ++
      e.2.Example ++ "\n" else "") ++
  (if cfg.IncludeSynonyms ∧ e.2.Synonyms ≠ [] then
    "\t\t" ++ capitalized ++ " " ++ toString e.1 ++ " Synonyms: " ++
      strIntercalate ", " e.2.Synonyms ++ "\n" else "") ++
  (if cfg.IncludeAntonyms ∧ e.2.Antonyms ≠ [] then
    "\t\t" ++ capitalized ++ " " ++ toString e.1 ++ " Antonyms: " ++
      strIntercalate ", " e.2.Antonyms ++ "\n" else "")

/-- The output-assembly tail of `fetchWordDetails` (lines 557–610): header
with optional phonetic, optional origin line, then either the
"No details available" line (empty `Definitions`, returned without
`removeEmptyLines`) or the rendered definition entries passed through
`removeEmptyLines`. -/
def formatOutput (cfg : OutputConfig) (word : String) (cd : WordCache) : String :=
  let capitalized := capitalizePhrase word
  let header :=
    if cd.Phonetic ≠ "" ∧ cfg.IncludePhonetic then
      capitalized ++ " " ++ cd.Phonetic ++ "\n"
    else capitalized ++ "\n"
  let originLine :=
    if cfg.IncludeOrigin ∧ cd.Origin ≠ "" then
      "\tOrigin: " ++ cd.Origin ++ "\n"
    else ""
  if cd.Definitions = [] then
    header ++ originLine ++ "\t" ++ capitalized ++ ": No details available.\n"
  else
    removeEmptyLines (header ++ originLine ++
      strJoin ((formatEntries cfg cd.Definitions).map (renderEntry cfg capitalized)))

/-! ## The resolver (`fetchWordDetails`, lines 400–611) -/

/-- Result of one `fetchWordDetails` call: the returned string, the cache
state after the call, and whether a remote lookup was issued. -/
structure FetchResult where
  output : String
  state : ResolverState
  remoteCalled : Bool
  deriving Repr, DecidableEq

/-- Go `fetchWordDetails` (lines 400–611), with the remote service as an
explicit parameter. Control flow, in source order: lower-case the word;
if it is in `wordUnknown` and `QueryForUnknownWords` is off, return the
no-details string with no state change and no remote call; otherwise on a
positive-cache hit format the cached record; otherwise issue the remote
lookup — on failure (or on a successful extraction with zero definitions)
mark the word unknown and return the no-details string, and on success with
at least one definition store the record, drop the word from the negative
cache if present, and format it. -/
def fetchWordDetails (cfg : OutputConfig) (qc : QueryConfig)
    (remote : String → RemoteResult) (st : ResolverState) (word0 : String) :
    FetchResult :=
  let word := toLowerStr word0
  if st.wordUnknown.contains word && !qc.QueryForUnknownWords then
    { output := noDetails word, state := st, remoteCalled := false }
  else
    match mapLookup st.wordCache word with
    | some cachedData =>
      { output := formatOutput cfg word cachedData, state := st, remoteCalled := false }
    | none =>
      match remote word with
      | RemoteResult.failure =>
        { output := noDetails word, state := markUnknown st word, remoteCalled := true }
      | RemoteResult.success cachedData =>
        if cachedData.Definitions.length > 0 then
          { output := formatOutput cfg word cachedData,
            state := addKnown st word cachedData, remoteCalled := true }
        else
          { output := noDetails word, state := markUnknown st word, remoteCalled := true }

/-! ## Frequency ranker (`countFrequencies` / `sortByFrequency`, lines 117–142)

`countFrequencies` fills a Go map; we model the map's contents as an
association list in first-insertion order. `sortByFrequency` then iterates
that map — in Go, map iteration order is unspecified and varies between
runs — and sorts with `sort.Slice` under the comparator
`items[i].Freq > items[j].Freq` alone. A run of `sortByFrequency` is
modelled as: pick ANY enumeration of the map (any permutation of the
association list) and sort it; the sort itself is modelled by the stable
`insertionSort`, so all nondeterminism is carried by the enumeration. -/

/-- One `counts[capitalizePhrase(item)]++` step on the map contents. -/
def bumpCount : List (String × Nat) → String → List (String × Nat)
  | [], k => [(k, 1)]
  | (k0, n) :: rest, k =>
    if k0 = k then (k0, n + 1) :: rest else (k0, n) :: bumpCount rest k

/-- Go `countFrequencies` (lines 117–123): the contents of the `counts` map,
keyed by the capitalized phrase. -/
def countFrequencies (content : List String) : List (String × Nat) :=
  content.foldl (fun counts item => bumpCount counts (capitalizePhrase item)) []

/-- The `sort.Slice` comparator of `sortByFrequency` (line 135), as the
order its output is sorted by: descending frequency. -/
def freqGe (a b : String × Nat) : Prop := b.2 ≤ a.2

instance : DecidableRel freqGe := fun a b => inferInstanceAs (Decidable (b.2 ≤ a.2))

/-- Go `sortByFrequency` (lines 125–142) applied to one enumeration of the
`counts` map: sort by descending frequency, return the items. -/
def sortByFrequency (items : List (String × Nat)) : List String :=
  (items.insertionSort freqGe).map (fun p => p.1)

/-! ## Example-sentence generation (`generateExampleSentencesContent`,
lines 631–699)

`rand.Intn(len(examplesCopy))` draws are modelled by a list of pick values,
each reduced modulo the current pool size, so every sequence of draws the
code can make is represented. -/

/-- The example-collection loop (lines 650–657): every non-empty example
across the record's definitions, first letter capitalized, in order. -/
def collectExamples (defs : List Definition) : List String :=
  defs.filterMap (fun d =>
    if d.Example ≠ "" then some (capitalizeSentence d.Example) else none)

/-- The sampling loop (lines 682–690): `maxCount` times, draw an index into
the remaining pool, emit that element and remove it from the pool. -/
def sampleLoop : Nat → List String → List Nat → List String
  | 0, _, _ => []
  | _ + 1, [], _ => []
  | k + 1, e :: es, picks =>
    let idx := (picks.headD 0) % (e :: es).length
    (e :: es).get ⟨idx, Nat.mod_lt _ (by simp)⟩ ::
      sampleLoop k ((e :: es).eraseIdx idx) picks.tail

/-- The selection step of lines 663–696: emit all examples when
`MaxExampleSentences` is 0 or at least the number available, otherwise run
the sampling loop (`maxCount` times; a negative `maxCount` runs it zero
times, exactly like the Go `for i := 0; i < maxExamples` loop). -/
def selectedExamples (maxE : Int) (ex : List String) (picks : List Nat) :
    List String :=
  if maxE = 0 ∨ (ex.length : Int) ≤ maxE then ex
  else sampleLoop maxE.toNat ex picks

/-- Go `generateExampleSentencesContent` (lines 631–699): empty result for
unknown, uncached, definition-less or example-less words; otherwise a header
line followed by the selected examples, passed through `removeEmptyLines`. -/
def generateExampleSentencesContent (cfg : OutputConfig) (st : ResolverState)
    (picks : List Nat) (word0 : String) : String :=
  let word := toLowerStr word0
  if st.wordUnknown.contains word then ""
  else
    match mapLookup st.wordCache word with
    | none => ""
    | some cachedData =>
      if cachedData.Definitions = [] then ""
      else
        let capitalized := capitalizePhrase word
        let ex := collectExamples cachedData.Definitions
        if ex = [] then ""
        else
          removeEmptyLines ((capitalized ++ "\n") ++
            strJoin ((selectedExamples cfg.MaxExampleSentences ex picks).map
              (fun e => "\t" ++ e ++ "\n")))

/-! ## Categorizer (`processFile`, lines 755–768) -/

/-- The `switch tok.Tag` categorizer inside `processFile` (lines 755–768). -/
def categorize (tag : String) : String :=
  if tag = "NN" ∨ tag = "NNS" ∨ tag = "NNP" ∨ tag = "NNPS" then "Nouns"
  else if tag = "VB" ∨ tag = "VBD" ∨ tag = "VBP" ∨ tag = "VBZ" ∨ tag = "VBG" then "Verbs"
  else if tag = "JJ" ∨ tag = "JJR" ∨ tag = "JJS" then "Adjectives"
  else if tag = "RB" ∨ tag = "RBR" ∨ tag = "RBS" then "Adverbs"
  else "OtherWords"


/-! ## Helper lemmas -/

/-- Latin-script membership implies letter-hood (true of the modelled Go
tables: the Latin table is the letter table minus µ). -/
theorem goIsLatin_imp_goIsLetter (c : Char) (h : goIsLatin c = true) :
    goIsLetter c = true := by
  simp only [goIsLatin, goIsLetter, Bool.or_eq_true, Bool.and_eq_true,
    decide_eq_true_eq, beq_iff_eq] at h ⊢
  omega

/-- The two checks of the `isEnglishText` loop collapse to Latin-script
membership alone: space, hyphen and slash pass the first check but fail the
second, and letters pass overall only when they are Latin-script. -/
theorem isEnglishTextAux_eq_all_latin (cs : List Char) :
    isEnglishTextAux cs = cs.all goIsLatin := by
  induction cs with
  | nil => rfl
  | cons r rs ih =>
    by_cases h : goIsLatin r = true
    · have hl := goIsLatin_imp_goIsLetter r h
      simp [isEnglishTextAux, h, hl, ih]
    · have h' : goIsLatin r = false := by
        simpa using h
      simp [isEnglishTextAux, h']

/-- Pushing a guarded `filterMap` into a `filter` + `map`. -/
theorem filterMap_guard_eq {α β : Type} (f : α → β) (p : α → Bool) (l : List α) :
    l.filterMap (fun a => if p a then none else some (f a)) =
      (l.filter (fun a => !p a)).map f := by
  induction l with
  | nil => rfl
  | cons a as ih => by_cases h : p a = true <;> simp [h, ih]

/-! ## Claim C4 -/

/-- C4 counterexample: `isEnglishText` accepts the empty string (the claim
requires it rejected, since no Latin letter is present) and rejects
`"a-b"` (the claim requires it accepted: every character is a Latin letter
or a hyphen, and a Latin letter is present). -/
theorem isEnglishText_c4_counterexample :
    isEnglishText "" = true ∧ isEnglishText "a-b" = false := by decide

/-- C4 amended: `isEnglishText` returns `true` iff every character of the
string is a Latin-script letter. The space/hyphen/slash allowances of the
first check are unreachable (those characters fail the Latin-script check),
and the empty string is accepted vacuously, so there is no
at-least-one-letter requirement. -/
theorem isEnglishText_eq_all_latin (s : String) :
    isEnglishText s = s.data.all goIsLatin :=
  isEnglishTextAux_eq_all_latin s.data

/-! ## Claim C8 -/

/-- C8: the categorizer is a total function realizing exactly the claimed
table: the four noun tags map to Nouns, the five verb tags to Verbs, the
three adjective tags to Adjectives, the three adverb tags to Adverbs, every
other tag to OtherWords, and every tag yields one of the five labels. -/
theorem categorize_total_table :
    (∀ t, t = "NN" ∨ t = "NNS" ∨ t = "NNP" ∨ t = "NNPS" →
      categorize t = "Nouns") ∧
    (∀ t, t = "VB" ∨ t = "VBD" ∨ t = "VBP" ∨ t = "VBZ" ∨ t = "VBG" →
      categorize t = "Verbs") ∧
    (∀ t, t = "JJ" ∨ t = "JJR" ∨ t = "JJS" → categorize t = "Adjectives") ∧
    (∀ t, t = "RB" ∨ t = "RBR" ∨ t = "RBS" → categorize t = "Adverbs") ∧
    (∀ t, ¬(t = "NN" ∨ t = "NNS" ∨ t = "NNP" ∨ t = "NNPS" ∨
            t = "VB" ∨ t = "VBD" ∨ t = "VBP" ∨ t = "VBZ" ∨ t = "VBG" ∨
            t = "JJ" ∨ t = "JJR" ∨ t = "JJS" ∨
            t = "RB" ∨ t = "RBR" ∨ t = "RBS") →
      categorize t = "OtherWords") ∧
    (∀ t, categorize t = "Nouns" ∨ categorize t = "Verbs" ∨
      categorize t = "Adjectives" ∨ categorize t = "Adverbs" ∨
      categorize t = "OtherWords") := by
  refine ⟨?_, ?_, ?_, ?_, ?_, ?_⟩
  · intro t h
    rcases h with rfl | rfl | rfl | rfl <;> simp [categorize]
  · intro t h
    rcases h with rfl | rfl | rfl | rfl | rfl <;> simp [categorize]
  · intro t h
    rcases h with rfl | rfl | rfl <;> simp [categorize]
  · intro t h
    rcases h with rfl | rfl | rfl <;> simp [categorize]
  · intro t h
    simp only [categorize]
    split_ifs with h1 h2 h3 h4
    · rcases h1 with rfl | rfl | rfl | rfl <;> exact absurd (by simp) h
    · rcases h2 with rfl | rfl | rfl | rfl | rfl <;> exact absurd (by simp) h
    · rcases h3 with rfl | rfl | rfl <;> exact absurd (by simp) h
    · rcases h4 with rfl | rfl | rfl <;> exact absurd (by simp) h
    · rfl
  · intro t
    simp only [categorize]
    split_ifs <;> simp

/-- C8 witness: the table theorem applied to the concrete tags `"VBZ"`
(a verb tag) and `","` (a punctuation tag). -/
theorem categorize_total_table_witness :
    categorize "VBZ" = "Verbs" ∧ categorize "," = "OtherWords" :=
  ⟨categorize_total_table.2.1 "VBZ" (by decide),
   categorize_total_table.2.2.2.2.1 "," (by decide)⟩

/-! ## Claim C10 -/

/-- A sense with no example sentence, for exercising the example filter. -/
def senseNoExample : Definition :=
  { PartOfSpeech := "noun", Definition := "first sense", Example := "",
    Synonyms := [], Antonyms := [] }

/-- A sense carrying an example sentence. -/
def senseWithExample : Definition :=
  { PartOfSpeech := "verb", Definition := "second sense",
    Example := "it runs", Synonyms := [], Antonyms := [] }

/-- The default output configuration with the example filter switched on. -/
def filterOnConfig : OutputConfig :=
  { defaultOutputConfig with FilterNoExample := true }

/-- C10: with `filterDefinitionsWithoutExamples` enabled, the rendered
entries are exactly the example-carrying definitions paired with one plus
their position in the FULL definition list, so every rendered number still
indexes its definition's place in the original list (skipped definitions
leave gaps; no renumbering from 1). -/
theorem formatEntries_keeps_original_numbering (cfg : OutputConfig)
    (defs : List Definition) (hf : cfg.FilterNoExample = true) :
    formatEntries cfg defs =
      (defs.enum.filter (fun q => !(q.2.Example == ""))).map
        (fun q => (q.1 + 1, q.2)) ∧
    ∀ p ∈ formatEntries cfg defs, defs[p.1 - 1]? = some p.2 ∧ 1 ≤ p.1 := by
  have heq : formatEntries cfg defs =
      (defs.enum.filter (fun q => !(q.2.Example == ""))).map
        (fun q => (q.1 + 1, q.2)) := by
    simp only [formatEntries, hf, Bool.true_and]
    exact filterMap_guard_eq _ (fun q => q.2.Example == "") defs.enum
  refine ⟨heq, ?_⟩
  intro p hp
  rw [heq] at hp
  rcases List.mem_map.mp hp with ⟨q, hq, rfl⟩
  rcases List.mem_filter.mp hq with ⟨hmem, _⟩
  have := List.mem_enum_iff_getElem?.mp hmem
  simpa using this

/-- C10 witness: on a two-sense record whose first sense lacks an example,
the surviving entry is numbered 2 and indexes position 1 of the original
list. -/
theorem formatEntries_keeps_original_numbering_witness :
    [senseNoExample, senseWithExample][2 - 1]? = some senseWithExample ∧
      1 ≤ 2 :=
  (formatEntries_keeps_original_numbering filterOnConfig
    [senseNoExample, senseWithExample] rfl).2 (2, senseWithExample) (by decide)


/-! ## Cache-state lemmas -/

/-- Boolean membership agrees with list membership. -/
theorem contains_iff_mem (s : List String) (w : String) :
    s.contains w = true ↔ w ∈ s := by
  simp [List.contains, List.elem_iff]

/-- Membership after a negative-cache insertion. -/
theorem mem_setInsert {s : List String} {w x : String} :
    x ∈ setInsert s w ↔ x = w ∨ x ∈ s := by
  unfold setInsert
  split_ifs with h
  · constructor
    · exact Or.inr
    · rintro (rfl | hx)
      · exact h
      · exact hx
  · simp

/-- Membership after a negative-cache removal. -/
theorem mem_setErase {s : List String} {w x : String} :
    x ∈ setErase s w ↔ x ∈ s ∧ x ≠ w := by
  simp [setErase]

/-- A failed positive-cache lookup is exactly a failed membership test. -/
theorem mapLookup_none_iff {m : List (String × WordCache)} {k : String} :
    mapLookup m k = none ↔ mapContains m k = false := by
  simp [mapLookup, mapContains, Option.map_eq_none', List.find?_eq_none,
    List.any_eq_true]

/-- Positive-cache membership unpacked to an entry witness. -/
theorem mapContains_true_iff {m : List (String × WordCache)} {k : String} :
    mapContains m k = true ↔ ∃ p ∈ m, p.1 = k := by
  simp [mapContains, List.any_eq_true]

/-- Looking up a freshly inserted record returns it. -/
theorem mapLookup_mapInsert_self (m : List (String × WordCache)) (k : String)
    (v : WordCache) : mapLookup (mapInsert m k v) k = some v := by
  simp [mapLookup, mapInsert]

/-- An inserted key is present. -/
theorem mapContains_mapInsert_self (m : List (String × WordCache)) (k : String)
    (v : WordCache) : mapContains (mapInsert m k v) k = true := by
  simp [mapContains, mapInsert]

/-- Pointwise-equal predicates give the same `any`. -/
theorem any_congr_pointwise {α : Type} {l : List α} {p q : α → Bool}
    (h : ∀ a ∈ l, p a = q a) : l.any p = l.any q := by
  induction l with
  | nil => rfl
  | cons a as ih =>
    simp only [List.any_cons, h a (List.mem_cons_self a as)]
    rw [ih (fun b hb => h b (List.mem_cons_of_mem a hb))]

/-- Inserting one key leaves the other keys' membership unchanged. -/
theorem mapContains_mapInsert_ne {m : List (String × WordCache)} {k k' : String}
    {v : WordCache} (h : k' ≠ k) :
    mapContains (mapInsert m k v) k' = mapContains m k' := by
  simp only [mapContains, mapInsert, List.any_cons, List.any_filter]
  have hk : (k == k') = false := by
    simp [Ne.symm h]
  rw [hk, Bool.false_or]
  refine any_congr_pointwise (fun a _ => ?_)
  by_cases ha : a.1 = k'
  · simp [ha, h]
  · simp [ha]

/-! ## Characterization of the `fetchWordDetails` branches -/

/-- Branch of lines 404–410: word in the negative cache with re-querying
off — immediate no-details return, no state change, no remote call. -/
theorem fetchWordDetails_skip (cfg : OutputConfig) (qc : QueryConfig)
    (remote : String → RemoteResult) (st : ResolverState) (w : String)
    (h1 : toLowerStr w ∈ st.wordUnknown) (h2 : qc.QueryForUnknownWords = false) :
    fetchWordDetails cfg qc remote st w =
      { output := noDetails (toLowerStr w), state := st, remoteCalled := false } := by
  simp [fetchWordDetails, h1, h2]

/-- Branch of lines 413–415 with a hit: positive-cache record formatted,
no state change, no remote call. The guard hypothesis says the early
negative-cache return was not taken. -/
theorem fetchWordDetails_hit (cfg : OutputConfig) (qc : QueryConfig)
    (remote : String → RemoteResult) (st : ResolverState) (w : String)
    (hq : toLowerStr w ∈ st.wordUnknown → qc.QueryForUnknownWords = true)
    (cd : WordCache) (hl : mapLookup st.wordCache (toLowerStr w) = some cd) :
    fetchWordDetails cfg qc remote st w =
      { output := formatOutput cfg (toLowerStr w) cd, state := st,
        remoteCalled := false } := by
  simp only [fetchWordDetails, hl]
  split_ifs with h
  · rcases Bool.and_eq_true .. |>.mp h with ⟨hc, hnq⟩
    have := hq ((contains_iff_mem _ _).mp hc)
    simp [this] at hnq
  · rfl

/-- Branches of lines 418–447: cache miss and remote failure — the word is
marked unknown (and the negative cache persisted), no-details returned. -/
theorem fetchWordDetails_remote_failure (cfg : OutputConfig) (qc : QueryConfig)
    (remote : String → RemoteResult) (st : ResolverState) (w : String)
    (hq : toLowerStr w ∈ st.wordUnknown → qc.QueryForUnknownWords = true)
    (hl : mapLookup st.wordCache (toLowerStr w) = none)
    (hr : remote (toLowerStr w) = RemoteResult.failure) :
    fetchWordDetails cfg qc remote st w =
      { output := noDetails (toLowerStr w),
        state := markUnknown st (toLowerStr w), remoteCalled := true } := by
  simp [fetchWordDetails, hl, hr]
  exact hq

/-- Branch of lines 549–554: cache miss, remote success but zero extracted
definitions — treated exactly like a failure. -/
theorem fetchWordDetails_remote_empty (cfg : OutputConfig) (qc : QueryConfig)
    (remote : String → RemoteResult) (st : ResolverState) (w : String)
    (hq : toLowerStr w ∈ st.wordUnknown → qc.QueryForUnknownWords = true)
    (hl : mapLookup st.wordCache (toLowerStr w) = none)
    (d : WordCache) (hr : remote (toLowerStr w) = RemoteResult.success d)
    (hd : d.Definitions = []) :
    fetchWordDetails cfg qc remote st w =
      { output := noDetails (toLowerStr w),
        state := markUnknown st (toLowerStr w), remoteCalled := true } := by
  simp [fetchWordDetails, hl, hr, hd]
  exact hq

/-- Branch of lines 539–548: cache miss, remote success with at least one
definition — record stored, word dropped from the negative cache if present,
record formatted. -/
theorem fetchWordDetails_remote_success (cfg : OutputConfig) (qc : QueryConfig)
    (remote : String → RemoteResult) (st : ResolverState) (w : String)
    (hq : toLowerStr w ∈ st.wordUnknown → qc.QueryForUnknownWords = true)
    (hl : mapLookup st.wordCache (toLowerStr w) = none)
    (d : WordCache) (hr : remote (toLowerStr w) = RemoteResult.success d)
    (hd : d.Definitions ≠ []) :
    fetchWordDetails cfg qc remote st w =
      { output := formatOutput cfg (toLowerStr w) d,
        state := addKnown st (toLowerStr w) d, remoteCalled := true } := by
  have hlen : 0 < d.Definitions.length := List.length_pos.mpr hd
  simp [fetchWordDetails, hl, hr, hlen]
  exact hq

/-! ## Claim C1 -/

/-- C1 counterexample: the claim fails without a restriction on the query
toggle. With `queryForUnknownWords` enabled, empty caches and a failing
remote, the first `fetchWordDetails("arcane")` call issues a remote lookup
and marks the word unknown, and the second call — finding the word in the
negative cache but configured to re-query — issues a SECOND remote lookup. -/
theorem fetch_twice_c1_counterexample :
    (fetchWordDetails defaultOutputConfig { QueryForUnknownWords := true }
        (fun _ => RemoteResult.failure) emptyState "arcane").remoteCalled = true ∧
    (fetchWordDetails defaultOutputConfig { QueryForUnknownWords := true }
        (fun _ => RemoteResult.failure)
        (fetchWordDetails defaultOutputConfig { QueryForUnknownWords := true }
          (fun _ => RemoteResult.failure) emptyState "arcane").state
        "arcane").remoteCalled = true := by decide

/-- C1 amended: under the default query configuration
(`queryForUnknownWords` unset, hence `false`), for EVERY word, every
starting state of the two caches, every output configuration and every pair
of remote behaviours, the second of two consecutive `fetchWordDetails` calls
for the word issues no remote lookup: it is served from the positive or the
negative cache. -/
theorem fetch_twice_no_second_remote (cfg1 cfg2 : OutputConfig)
    (remote1 remote2 : String → RemoteResult) (st : ResolverState) (w : String) :
    (fetchWordDetails cfg2 defaultQueryConfig remote2
      (fetchWordDetails cfg1 defaultQueryConfig remote1 st w).state w).remoteCalled =
      false := by
  by_cases hu : toLowerStr w ∈ st.wordUnknown
  · rw [fetchWordDetails_skip cfg1 defaultQueryConfig remote1 st w hu rfl]
    dsimp only
    rw [fetchWordDetails_skip cfg2 defaultQueryConfig remote2 st w hu rfl]
  · have hq : toLowerStr w ∈ st.wordUnknown →
        defaultQueryConfig.QueryForUnknownWords = true := fun h => absurd h hu
    cases hl : mapLookup st.wordCache (toLowerStr w) with
    | some cd =>
      rw [fetchWordDetails_hit cfg1 defaultQueryConfig remote1 st w hq cd hl]
      dsimp only
      rw [fetchWordDetails_hit cfg2 defaultQueryConfig remote2 st w hq cd hl]
    | none =>
      have hmem : toLowerStr w ∈ (markUnknown st (toLowerStr w)).wordUnknown := by
        simp [markUnknown, mem_setInsert]
      cases hr : remote1 (toLowerStr w) with
      | failure =>
        rw [fetchWordDetails_remote_failure cfg1 defaultQueryConfig remote1 st w hq hl hr]
        dsimp only
        rw [fetchWordDetails_skip cfg2 defaultQueryConfig remote2 _ w hmem rfl]
      | success d =>
        by_cases hd : d.Definitions = []
        · rw [fetchWordDetails_remote_empty cfg1 defaultQueryConfig remote1 st w hq hl d hr hd]
          dsimp only
          rw [fetchWordDetails_skip cfg2 defaultQueryConfig remote2 _ w hmem rfl]
        · rw [fetchWordDetails_remote_success cfg1 defaultQueryConfig remote1 st w hq hl d hr hd]
          dsimp only
          have hunk : (addKnown st (toLowerStr w) d).wordUnknown = st.wordUnknown := by
            simp [addKnown, hu]
          have hq2 : toLowerStr w ∈ (addKnown st (toLowerStr w) d).wordUnknown →
              defaultQueryConfig.QueryForUnknownWords = true := by
            rw [hunk]; exact hq
          have hl2 : mapLookup (addKnown st (toLowerStr w) d).wordCache
              (toLowerStr w) = some d := by
            simp [addKnown, hu, mapLookup_mapInsert_self]
          rw [fetchWordDetails_hit cfg2 _ remote2 _ w hq2 d hl2]

/-! ## Claim C5 -/

/-- A sense a successful remote lookup could return. -/
def sampleSense : Definition :=
  { PartOfSpeech := "noun", Definition := "a thing",
    Example := "an example", Synonyms := [], Antonyms := [] }

/-- A one-sense record a successful remote lookup could return. -/
def sampleRecord : WordCache :=
  { Definitions := [sampleSense],
    Phonetic := "/r/", Origin := "", Synonyms := [], Antonyms := [] }

/-- A state whose negative cache holds exactly the word "appledore". -/
def unknownAState : ResolverState :=
  { wordCache := [], wordUnknown := ["appledore"], savedCache := [],
    savedUnknown := ["appledore"] }

/-- C5 counterexample: under the DEFAULT configuration
(`queryForUnknownWords = false`), a word present in the UnknownSet is NOT
re-queried: the call issues no remote lookup and changes nothing, even
though the remote service would have returned a one-sense record. The
default therefore IS permanent negative caching, contrary to the claim. -/
theorem default_config_skips_unknown_counterexample :
    (fetchWordDetails defaultOutputConfig defaultQueryConfig
      (fun _ => RemoteResult.success sampleRecord) unknownAState
      "appledore").remoteCalled = false ∧
    (fetchWordDetails defaultOutputConfig defaultQueryConfig
      (fun _ => RemoteResult.success sampleRecord) unknownAState
      "appledore").state = unknownAState := by decide

/-- C5 amended: under the default configuration a word in the UnknownSet is
never re-queried — `fetchWordDetails` returns the no-details outcome
immediately, with no remote call and no state change. Re-querying on every
call happens exactly when `queryForUnknownWords` is enabled: then an
UnknownSet word that is not positively cached is looked up remotely. -/
theorem unknown_requery_iff_toggle (cfg : OutputConfig)
    (remote : String → RemoteResult) (st : ResolverState) (w : String)
    (hu : toLowerStr w ∈ st.wordUnknown) :
    (fetchWordDetails cfg defaultQueryConfig remote st w =
      { output := noDetails (toLowerStr w), state := st, remoteCalled := false }) ∧
    (∀ qc : QueryConfig, qc.QueryForUnknownWords = true →
      mapLookup st.wordCache (toLowerStr w) = none →
      (fetchWordDetails cfg qc remote st w).remoteCalled = true) := by
  constructor
  · exact fetchWordDetails_skip cfg _ remote st w hu rfl
  · intro qc hqc hl
    cases hr : remote (toLowerStr w) with
    | failure =>
      rw [fetchWordDetails_remote_failure cfg qc remote st w (fun _ => hqc) hl hr]
    | success d =>
      by_cases hd : d.Definitions = []
      · rw [fetchWordDetails_remote_empty cfg qc remote st w (fun _ => hqc) hl d hr hd]
      · rw [fetchWordDetails_remote_success cfg qc remote st w (fun _ => hqc) hl d hr hd]

/-- C5 witness: the amended theorem applied to the concrete state holding
"appledore" in its negative cache, under a failing remote. -/
theorem unknown_requery_iff_toggle_witness :
    fetchWordDetails defaultOutputConfig defaultQueryConfig
      (fun _ => RemoteResult.failure) unknownAState "appledore" =
      { output := noDetails (toLowerStr "appledore"), state := unknownAState,
        remoteCalled := false } :=
  (unknown_requery_iff_toggle defaultOutputConfig (fun _ => RemoteResult.failure)
    unknownAState "appledore" (by decide)).1

/-! ## State-shape lemmas for resolver calls -/

/-- `markUnknown` leaves the positive cache untouched. -/
theorem markUnknown_wordCache (st : ResolverState) (w : String) :
    (markUnknown st w).wordCache = st.wordCache := rfl

/-- `markUnknown` inserts into both the live and the persisted negative
cache. -/
theorem markUnknown_wordUnknown (st : ResolverState) (w : String) :
    (markUnknown st w).wordUnknown = setInsert st.wordUnknown w := rfl

/-- `addKnown` updates the positive cache with the new record. -/
theorem addKnown_wordCache (st : ResolverState) (w : String) (d : WordCache) :
    (addKnown st w d).wordCache = mapInsert st.wordCache w d := by
  by_cases h : w ∈ st.wordUnknown <;> simp [addKnown, h]

/-- `addKnown` drops the word from the negative cache when present. -/
theorem addKnown_wordUnknown (st : ResolverState) (w : String) (d : WordCache) :
    (addKnown st w d).wordUnknown =
      if w ∈ st.wordUnknown then setErase st.wordUnknown w
      else st.wordUnknown := by
  by_cases h : w ∈ st.wordUnknown <;> simp [addKnown, h]

/-- Every `fetchWordDetails` call leaves the state unchanged, marks the
looked-up word unknown, or stores a record with at least one definition
for it; the latter two happen only on a positive-cache miss. -/
theorem fetchWordDetails_state_cases (cfg : OutputConfig) (qc : QueryConfig)
    (remote : String → RemoteResult) (st : ResolverState) (w : String) :
    (fetchWordDetails cfg qc remote st w).state = st ∨
    (mapLookup st.wordCache (toLowerStr w) = none ∧
      (fetchWordDetails cfg qc remote st w).state =
        markUnknown st (toLowerStr w)) ∨
    (∃ d, mapLookup st.wordCache (toLowerStr w) = none ∧ d.Definitions ≠ [] ∧
      (fetchWordDetails cfg qc remote st w).state =
        addKnown st (toLowerStr w) d) := by
  by_cases hu : toLowerStr w ∈ st.wordUnknown
  case pos =>
    by_cases hb : qc.QueryForUnknownWords = false
    · rw [fetchWordDetails_skip cfg qc remote st w hu hb]
      exact Or.inl rfl
    · have hq : toLowerStr w ∈ st.wordUnknown → qc.QueryForUnknownWords = true := by
        intro _
        revert hb
        cases qc.QueryForUnknownWords <;> simp
      cases hl : mapLookup st.wordCache (toLowerStr w) with
      | some cd =>
        rw [fetchWordDetails_hit cfg qc remote st w hq cd hl]
        exact Or.inl rfl
      | none =>
        cases hr : remote (toLowerStr w) with
        | failure =>
          rw [fetchWordDetails_remote_failure cfg qc remote st w hq hl hr]
          exact Or.inr (Or.inl ⟨rfl, rfl⟩)
        | success d =>
          by_cases hd : d.Definitions = []
          · rw [fetchWordDetails_remote_empty cfg qc remote st w hq hl d hr hd]
            exact Or.inr (Or.inl ⟨rfl, rfl⟩)
          · rw [fetchWordDetails_remote_success cfg qc remote st w hq hl d hr hd]
            exact Or.inr (Or.inr ⟨d, rfl, hd, rfl⟩)
  case neg =>
    have hq : toLowerStr w ∈ st.wordUnknown → qc.QueryForUnknownWords = true :=
      fun h => absurd h hu
    cases hl : mapLookup st.wordCache (toLowerStr w) with
    | some cd =>
      rw [fetchWordDetails_hit cfg qc remote st w hq cd hl]
      exact Or.inl rfl
    | none =>
      cases hr : remote (toLowerStr w) with
      | failure =>
        rw [fetchWordDetails_remote_failure cfg qc remote st w hq hl hr]
        exact Or.inr (Or.inl ⟨rfl, rfl⟩)
      | success d =>
        by_cases hd : d.Definitions = []
        · rw [fetchWordDetails_remote_empty cfg qc remote st w hq hl d hr hd]
          exact Or.inr (Or.inl ⟨rfl, rfl⟩)
        · rw [fetchWordDetails_remote_success cfg qc remote st w hq hl d hr hd]
          exact Or.inr (Or.inr ⟨d, rfl, hd, rfl⟩)

/-! ## Claim C3 -/

/-- C3: on a positive-cache miss where the call reaches the remote lookup
and that lookup fails — or extracts zero definitions — the word is recorded
in the UnknownSet, the UnknownSet is persisted, the positive cache is
untouched, and the call returns the no-details (Unknown) outcome; moreover
NO `fetchWordDetails` call ever persists a record with zero definitions into
a positive cache all of whose records have at least one definition. -/
theorem fetch_failure_routes_to_unknown :
    (∀ (cfg : OutputConfig) (qc : QueryConfig) (remote : String → RemoteResult)
        (st : ResolverState) (w : String),
      mapLookup st.wordCache (toLowerStr w) = none →
      (toLowerStr w ∈ st.wordUnknown → qc.QueryForUnknownWords = true) →
      (remote (toLowerStr w) = RemoteResult.failure ∨
        ∃ d, remote (toLowerStr w) = RemoteResult.success d ∧
          d.Definitions = []) →
      toLowerStr w ∈ (fetchWordDetails cfg qc remote st w).state.wordUnknown ∧
      (fetchWordDetails cfg qc remote st w).state.savedUnknown =
        (fetchWordDetails cfg qc remote st w).state.wordUnknown ∧
      (fetchWordDetails cfg qc remote st w).state.wordCache = st.wordCache ∧
      (fetchWordDetails cfg qc remote st w).output = noDetails (toLowerStr w) ∧
      (fetchWordDetails cfg qc remote st w).remoteCalled = true) ∧
    (∀ (cfg : OutputConfig) (qc : QueryConfig) (remote : String → RemoteResult)
        (st : ResolverState) (w : String),
      (∀ p ∈ st.wordCache, p.2.Definitions ≠ []) →
      ∀ p ∈ (fetchWordDetails cfg qc remote st w).state.wordCache,
        p.2.Definitions ≠ []) := by
  constructor
  · intro cfg qc remote st w hl hq hfail
    have hstep : fetchWordDetails cfg qc remote st w =
        { output := noDetails (toLowerStr w),
          state := markUnknown st (toLowerStr w), remoteCalled := true } := by
      rcases hfail with hr | ⟨d, hr, hd⟩
      · exact fetchWordDetails_remote_failure cfg qc remote st w hq hl hr
      · exact fetchWordDetails_remote_empty cfg qc remote st w hq hl d hr hd
    rw [hstep]
    refine ⟨?_, rfl, rfl, rfl, rfl⟩
    exact mem_setInsert.mpr (Or.inl rfl)
  · intro cfg qc remote st w hinv p hp
    rcases fetchWordDetails_state_cases cfg qc remote st w with
      hs | ⟨_, hs⟩ | ⟨d, _, hd, hs⟩
    · rw [hs] at hp
      exact hinv p hp
    · rw [hs, markUnknown_wordCache] at hp
      exact hinv p hp
    · rw [hs, addKnown_wordCache] at hp
      rcases List.mem_cons.mp hp with rfl | hp'
      · exact hd
      · exact hinv p (List.mem_filter.mp hp').1

/-- C3 witness: the failure half applied to an empty state and an
always-failing remote, and the invariant half applied to the same call. -/
theorem fetch_failure_routes_to_unknown_witness :
    toLowerStr "qwzx" ∈
      (fetchWordDetails defaultOutputConfig defaultQueryConfig
        (fun _ => RemoteResult.failure) emptyState "qwzx").state.wordUnknown ∧
    (∀ p ∈ (fetchWordDetails defaultOutputConfig defaultQueryConfig
        (fun _ => RemoteResult.failure) emptyState "qwzx").state.wordCache,
      p.2.Definitions ≠ []) :=
  ⟨(fetch_failure_routes_to_unknown.1 defaultOutputConfig defaultQueryConfig
      (fun _ => RemoteResult.failure) emptyState "qwzx" (by decide)
      (fun h => absurd h (by decide)) (Or.inl rfl)).1,
   fetch_failure_routes_to_unknown.2 defaultOutputConfig defaultQueryConfig
      (fun _ => RemoteResult.failure) emptyState "qwzx" (by decide)⟩

/-! ## Claim C2 -/

/-- No word is in both the positive and the negative cache. -/
def cachesDisjoint (st : ResolverState) : Prop :=
  ∀ x, mapContains st.wordCache x = true → x ∉ st.wordUnknown

/-- Marking an uncached word unknown preserves cache disjointness. -/
theorem cachesDisjoint_markUnknown {st : ResolverState} {w : String}
    (h : cachesDisjoint st) (hnc : mapContains st.wordCache w = false) :
    cachesDisjoint (markUnknown st w) := by
  intro x hx hmem
  rw [markUnknown_wordCache] at hx
  rcases mem_setInsert.mp hmem with rfl | hmem'
  · rw [hx] at hnc
    exact Bool.true_eq_false.mp hnc
  · exact h x hx hmem'

/-- Storing a record (and dropping the word from the negative cache)
preserves cache disjointness. -/
theorem cachesDisjoint_addKnown {st : ResolverState} {w : String}
    {d : WordCache} (h : cachesDisjoint st) :
    cachesDisjoint (addKnown st w d) := by
  intro x hx hmem
  rw [addKnown_wordCache] at hx
  rw [addKnown_wordUnknown] at hmem
  by_cases hxw : x = w
  · subst hxw
    split_ifs at hmem with hw
    · exact (mem_setErase.mp hmem).2 rfl
    · exact hw hmem
  · rw [mapContains_mapInsert_ne hxw] at hx
    have hnot := h x hx
    split_ifs at hmem with hw
    · exact hnot (mem_setErase.mp hmem).1
    · exact hnot hmem

/-- One resolver call of a sequence: the query configuration in force, the
word, and the outcome the remote service would return for it. -/
def resolveStep (cfg : OutputConfig) (st : ResolverState)
    (c : QueryConfig × String × RemoteResult) : ResolverState :=
  (fetchWordDetails cfg c.1 (fun _ => c.2.2) st c.2.1).state

/-- A sequence of resolver calls, threading the cache state. -/
def resolveSeq (cfg : OutputConfig) (st : ResolverState)
    (calls : List (QueryConfig × String × RemoteResult)) : ResolverState :=
  calls.foldl (resolveStep cfg) st

/-- A single resolver call preserves cache disjointness. -/
theorem cachesDisjoint_step (cfg : OutputConfig) (qc : QueryConfig)
    (remote : String → RemoteResult) (st : ResolverState) (w : String)
    (h : cachesDisjoint st) :
    cachesDisjoint (fetchWordDetails cfg qc remote st w).state := by
  rcases fetchWordDetails_state_cases cfg qc remote st w with
    hs | ⟨hl, hs⟩ | ⟨d, hl, _, hs⟩
  · rw [hs]
    exact h
  · rw [hs]
    exact cachesDisjoint_markUnknown h (mapLookup_none_iff.mp hl)
  · rw [hs]
    exact cachesDisjoint_addKnown h

/-- C2: starting from disjoint caches, after ANY sequence of resolver calls
(arbitrary words, query configurations and remote outcomes) no word is in
both the positive cache and the UnknownSet; and a successful resolution of a
previously-unknown word (re-query enabled, cache miss, remote success with
at least one definition) puts the word in the positive cache AND removes it
from the UnknownSet in the same call. -/
theorem caches_stay_disjoint (cfg : OutputConfig)
    (calls : List (QueryConfig × String × RemoteResult)) (st : ResolverState)
    (h : cachesDisjoint st) :
    cachesDisjoint (resolveSeq cfg st calls) ∧
    (∀ (qc : QueryConfig) (remote : String → RemoteResult) (w : String)
        (d : WordCache) (st1 : ResolverState),
      toLowerStr w ∈ st1.wordUnknown → qc.QueryForUnknownWords = true →
      mapLookup st1.wordCache (toLowerStr w) = none →
      remote (toLowerStr w) = RemoteResult.success d → d.Definitions ≠ [] →
      mapContains (fetchWordDetails cfg qc remote st1 w).state.wordCache
        (toLowerStr w) = true ∧
      toLowerStr w ∉ (fetchWordDetails cfg qc remote st1 w).state.wordUnknown) := by
  constructor
  · induction calls generalizing st with
    | nil => exact h
    | cons c cs ih =>
      exact ih _ (cachesDisjoint_step cfg c.1 (fun _ => c.2.2) st c.2.1 h)
  · intro qc remote w d st1 hu hqc hl hr hd
    rw [fetchWordDetails_remote_success cfg qc remote st1 w (fun _ => hqc) hl d hr hd]
    refine ⟨?_, ?_⟩
    · rw [addKnown_wordCache]
      exact mapContains_mapInsert_self st1.wordCache (toLowerStr w) d
    · rw [addKnown_wordUnknown]
      intro hmem
      split_ifs at hmem
      exact (mem_setErase.mp hmem).2 rfl

/-- C2 witness: the disjointness theorem applied to the empty (disjoint)
state and a concrete two-call sequence, plus the deletion half applied to a
state holding "appledore" in its negative cache with a successful remote. -/
theorem caches_stay_disjoint_witness :
    cachesDisjoint (resolveSeq defaultOutputConfig emptyState
      [({ QueryForUnknownWords := false }, "rook", RemoteResult.failure),
       ({ QueryForUnknownWords := false }, "pawn",
        RemoteResult.success sampleRecord)]) ∧
    toLowerStr "appledore" ∉
      (fetchWordDetails defaultOutputConfig { QueryForUnknownWords := true }
        (fun _ => RemoteResult.success sampleRecord) unknownAState
        "appledore").state.wordUnknown :=
  ⟨(caches_stay_disjoint defaultOutputConfig _ emptyState
      (fun x hx => by simp [emptyState, mapContains] at hx)).1,
   ((caches_stay_disjoint defaultOutputConfig [] unknownAState
      (fun x hx => by simp [unknownAState, mapContains] at hx)).2
      { QueryForUnknownWords := true } (fun _ => RemoteResult.success sampleRecord)
      "appledore" sampleRecord unknownAState (by decide) rfl (by decide) rfl
      (by decide)).2⟩

/-! ## Claim C6 -/

instance : IsTotal (String × Nat) freqGe :=
  ⟨fun a b => Nat.le_total b.2 a.2⟩

instance : IsTrans (String × Nat) freqGe :=
  ⟨fun _ _ _ hab hbc => Nat.le_trans hbc hab⟩

/-- C6 counterexample: the ranker is NOT deterministic. The two runs below
process the same input `["a", "b"]`: both enumerations are permutations of
the counts map `countFrequencies ["a", "b"]` (Go map iteration order is
unspecified), yet `sortByFrequency` returns differently ordered results for
the two equal-frequency phrases — there is no tie-break in the comparator. -/
theorem rank_not_deterministic_counterexample :
    [("A", 1), ("B", 1)].Perm (countFrequencies ["a", "b"]) ∧
    [("B", 1), ("A", 1)].Perm (countFrequencies ["a", "b"]) ∧
    sortByFrequency [("A", 1), ("B", 1)] ≠
      sortByFrequency [("B", 1), ("A", 1)] := by
  decide

/-- C6 amended: for every run of the ranker — any enumeration of the counts
map, i.e. any permutation of `countFrequencies content` — the output is the
enumeration sorted by descending occurrence count and contains exactly the
counted phrases; but the order among equal-frequency phrases follows the
map-iteration order, so the output is reproducible only up to permutations
within equal counts, not identical across runs. -/
theorem rank_sorted_and_complete (content : List String)
    (enum : List (String × Nat)) (h : enum.Perm (countFrequencies content)) :
    List.Sorted freqGe (enum.insertionSort freqGe) ∧
    sortByFrequency enum = (enum.insertionSort freqGe).map (fun p => p.1) ∧
    (sortByFrequency enum).Perm
      ((countFrequencies content).map (fun p => p.1)) := by
  refine ⟨List.sorted_insertionSort freqGe enum, rfl, ?_⟩
  exact ((List.perm_insertionSort freqGe enum).map (fun p => p.1)).trans
    (h.map (fun p => p.1))

/-- C6 witness: the amended theorem applied to the input `["a", "b", "a"]`
and the reversed enumeration of its counts map. -/
theorem rank_sorted_and_complete_witness :
    List.Sorted freqGe ([("B", 1), ("A", 2)].insertionSort freqGe) ∧
    sortByFrequency [("B", 1), ("A", 2)] =
      ([("B", 1), ("A", 2)].insertionSort freqGe).map (fun p => p.1) ∧
    (sortByFrequency [("B", 1), ("A", 2)]).Perm
      ((countFrequencies ["a", "b", "a"]).map (fun p => p.1)) :=
  rank_sorted_and_complete ["a", "b", "a"] [("B", 1), ("A", 2)] (by decide)

/-! ## Claim C7 -/

/-- The sampling loop produces exactly `k` elements when the pool is large
enough. -/
theorem sampleLoop_length (k : Nat) (pool : List String) (picks : List Nat)
    (hk : k ≤ pool.length) : (sampleLoop k pool picks).length = k := by
  induction k generalizing pool picks with
  | zero => rfl
  | succ n ih =>
    cases pool with
    | nil => simp at hk
    | cons e es =>
      simp only [sampleLoop]
      rw [List.length_cons, ih]
      have hidx : picks.headD 0 % (e :: es).length < (e :: es).length :=
        Nat.mod_lt _ (by simp)
      rw [List.length_eraseIdx]
      simp only [List.length_cons] at hidx hk ⊢
      simp only [if_pos hidx]
      omega

/-- Removing the drawn element and putting it in front is a permutation. -/
theorem cons_eraseIdx_perm (l : List String) (i : Nat) (h : i < l.length) :
    (l[i] :: l.eraseIdx i).Perm l := by
  conv_rhs => rw [← List.take_append_drop i l]
  rw [List.eraseIdx_eq_take_drop_succ, List.drop_eq_getElem_cons h]
  exact List.perm_middle.symm

/-- The sampling loop draws without replacement: its output is a
sub-permutation of the pool. -/
theorem sampleLoop_subperm (k : Nat) (pool : List String) (picks : List Nat) :
    (sampleLoop k pool picks).Subperm pool := by
  induction k generalizing pool picks with
  | zero => exact List.nil_subperm
  | succ n ih =>
    cases pool with
    | nil => exact List.nil_subperm
    | cons e es =>
      have hidx : (picks.headD 0) % (e :: es).length < (e :: es).length :=
        Nat.mod_lt _ (by simp)
      have h1 : sampleLoop (n + 1) (e :: es) picks =
          (e :: es)[(picks.headD 0) % (e :: es).length] ::
            sampleLoop n ((e :: es).eraseIdx ((picks.headD 0) % (e :: es).length))
              picks.tail := rfl
      rw [h1]
      refine List.Subperm.trans ?_ (cons_eraseIdx_perm (e :: es) _ hidx).subperm
      exact (List.subperm_cons _).mpr (ih _ picks.tail)

/-- A sub-permutation of a duplicate-free list is duplicate-free. -/
theorem subperm_nodup {l1 l2 : List String} (h : l1.Subperm l2)
    (hd : l2.Nodup) : l1.Nodup := by
  obtain ⟨l, hp, hs⟩ := h
  exact hp.nodup_iff.mp (hs.nodup hd)

/-- Every selected example comes from the collected pool. -/
theorem selectedExamples_subset (maxE : Int) (ex : List String)
    (picks : List Nat) : ∀ e ∈ selectedExamples maxE ex picks, e ∈ ex := by
  unfold selectedExamples
  split_ifs
  · exact fun e he => he
  · exact fun e he => (sampleLoop_subperm _ _ _).subset he

/-- C7 counterexample: the sampled output need not be pairwise distinct.
On a record whose collected examples are `["E", "E", "X"]` (two senses
sharing one example sentence) with `maxCount = 2`, the draws 0, 0 — both
legal `rand.Intn` outcomes — select the two equal strings `"E"`, so the
output is not pairwise distinct, though positionally drawn without
replacement. -/
theorem selectedExamples_repeats_counterexample :
    selectedExamples 2 ["E", "E", "X"] [0, 0] = ["E", "E"] ∧
    ¬(["E", "E"] : List String).Nodup := by
  decide

/-- C7 amended: if `maxCount` is zero or at least the number of collected
examples, all of them are emitted in original order; if `maxCount` is
between 1 and that number minus 1, exactly `maxCount` examples are emitted,
drawn without replacement (a sub-permutation of the collected list, hence at
pairwise-distinct positions), and they are pairwise distinct whenever the
collected examples themselves are pairwise distinct. -/
theorem selectedExamples_spec (maxE : Int) (ex : List String)
    (picks : List Nat) :
    ((maxE = 0 ∨ (ex.length : Int) ≤ maxE) →
      selectedExamples maxE ex picks = ex) ∧
    (1 ≤ maxE → maxE < (ex.length : Int) →
      (selectedExamples maxE ex picks).length = maxE.toNat ∧
      (selectedExamples maxE ex picks).Subperm ex ∧
      (ex.Nodup → (selectedExamples maxE ex picks).Nodup)) := by
  constructor
  · intro h
    simp [selectedExamples, h]
  · intro h1 h2
    have hne : ¬(maxE = 0 ∨ (ex.length : Int) ≤ maxE) := by
      rintro (h | h) <;> omega
    have hsel : selectedExamples maxE ex picks =
        sampleLoop maxE.toNat ex picks := by
      simp [selectedExamples, hne]
    have hk : maxE.toNat ≤ ex.length := by omega
    rw [hsel]
    exact ⟨sampleLoop_length _ _ _ hk, sampleLoop_subperm _ _ _,
      fun hd => subperm_nodup (sampleLoop_subperm _ _ _) hd⟩

/-- C7 witness: the amended theorem applied to a two-example pool with
`maxCount = 1` and the draw 1. -/
theorem selectedExamples_spec_witness :
    (selectedExamples 1 ["E", "F"] [1]).length = (1 : Int).toNat ∧
    (selectedExamples 1 ["E", "F"] [1]).Subperm ["E", "F"] ∧
    ((["E", "F"] : List String).Nodup →
      (selectedExamples 1 ["E", "F"] [1]).Nodup) :=
  (selectedExamples_spec 1 ["E", "F"] [1]).2 (by decide) (by decide)

/-! ## Claim C9 -/

/-- Splitting at the first separator occurrence. -/
theorem splitOn_append_cons {c : Char} (l t : List Char) (h : c ∉ l) :
    (l ++ c :: t).splitOn c = l :: t.splitOn c := by
  induction l with
  | nil => simp [List.splitOn, List.splitOnP_cons]
  | cons a l1 ih =>
    have ha : a ≠ c := fun hac => h (hac ▸ List.mem_cons_self a l1)
    have h1 : c ∉ l1 := fun hc => h (List.mem_cons_of_mem a hc)
    simp only [List.cons_append, List.splitOn, List.splitOnP_cons] at *
    simp [ha, ih h1]

/-- Splitting newline-terminated lines recovers the lines (plus the final
empty piece). -/
theorem splitOn_flatten_newline (lines : List (List Char))
    (h : ∀ l ∈ lines, ('\n' : Char) ∉ l) :
    ((lines.map (fun l => l ++ ['\n'])).flatten).splitOn '\n' = lines ++ [[]] := by
  induction lines with
  | nil => simp [List.splitOn, List.splitOnP_nil]
  | cons l ls ih =>
    have hl : ('\n' : Char) ∉ l := h l (List.mem_cons_self l ls)
    have hls : ∀ x ∈ ls, ('\n' : Char) ∉ x :=
      fun x hx => h x (List.mem_cons_of_mem l hx)
    simp only [List.map_cons, List.flatten_cons, List.append_assoc,
      List.singleton_append]
    rw [splitOn_append_cons _ _ hl, ih hls]
    rfl

/-- `removeEmptyLines` applied to a header line followed by tab-indented
item lines (the shape built by `generateExampleSentencesContent`) keeps
exactly those lines, provided the header and the items are free of newlines
and are not whitespace-only. -/
theorem removeEmptyLines_header_items (header : String) (items : List String)
    (hh1 : ('\n' : Char) ∉ header.data)
    (hh2 : header.data.all Char.isWhitespace = false)
    (hi : ∀ e ∈ items, ('\n' : Char) ∉ e.data ∧
      e.data.all Char.isWhitespace = false) :
    removeEmptyLines ((header ++ "\n") ++
        strJoin (items.map (fun e => "\t" ++ e ++ "\n"))) =
      strIntercalate "\n" (header :: items.map (fun e => "\t" ++ e)) := by
  have hdata : ((header ++ "\n") ++
      strJoin (items.map (fun e => "\t" ++ e ++ "\n"))).data =
      ((header.data :: items.map (fun e => '\t' :: e.data)).map
        (fun l => l ++ ['\n'])).flatten := by
    simp only [String.data_append, strJoin, List.map_map, List.map_cons,
      List.flatten_cons]
    have hfn : ∀ e : String, (String.data ∘ fun e => "\t" ++ e ++ "\n") e =
        ('\t' :: e.data) ++ ['\n'] := by
      intro e
      simp [String.data_append]
    rw [List.map_congr_left (fun e _ => hfn e)]
    simp [List.map_map, Function.comp]
    rfl
  rw [removeEmptyLines, hdata, splitOn_flatten_newline _ ?hnl]
  case hnl =>
    intro l hl
    rcases List.mem_cons.mp hl with rfl | hl1
    · exact hh1
    · rcases List.mem_map.mp hl1 with ⟨e, he, rfl⟩
      intro hc
      rcases List.mem_cons.mp hc with hq | hq
      · exact absurd hq (by decide)
      · exact (hi e he).1 hq
  · congr 1
    rw [List.map_append, List.filter_append]
    have h2 : (([([] : List Char)].map String.mk).filter
        (fun line => !line.data.all Char.isWhitespace)) = [] := by
      decide
    rw [h2, List.append_nil]
    rw [List.filter_map]
    have hkeep : ∀ l ∈ (header.data :: items.map (fun e => '\t' :: e.data)),
        ((fun line => !line.data.all Char.isWhitespace) ∘ String.mk) l = true := by
      intro l hl
      rcases List.mem_cons.mp hl with rfl | hl1
      · simp [hh2]
      · rcases List.mem_map.mp hl1 with ⟨e, he, rfl⟩
        simp [(hi e he).2]
    rw [List.filter_eq_self.mpr hkeep]
    simp only [List.map_cons, List.map_map]
    congr 1

/-- C9: the example-sentences content is empty whenever the word is in the
UnknownSet, is absent from the positive cache, has a record with zero
definitions, or has no non-empty example; and whenever
`maxExampleSentences` is NONNEGATIVE and the output is produced at all, the
selection is non-empty and the output is exactly the header line followed by
one tab-indented line per selected example (so a header is never emitted
without at least one example line). The last part assumes the header and the
collected examples contain no newline and some non-whitespace character. -/
theorem generateExampleSentences_spec :
    (∀ (cfg : OutputConfig) (st : ResolverState) (picks : List Nat) (w : String),
      toLowerStr w ∈ st.wordUnknown →
      generateExampleSentencesContent cfg st picks w = "") ∧
    (∀ (cfg : OutputConfig) (st : ResolverState) (picks : List Nat) (w : String),
      mapLookup st.wordCache (toLowerStr w) = none →
      generateExampleSentencesContent cfg st picks w = "") ∧
    (∀ (cfg : OutputConfig) (st : ResolverState) (picks : List Nat) (w : String)
        (cd : WordCache),
      mapLookup st.wordCache (toLowerStr w) = some cd → cd.Definitions = [] →
      generateExampleSentencesContent cfg st picks w = "") ∧
    (∀ (cfg : OutputConfig) (st : ResolverState) (picks : List Nat) (w : String)
        (cd : WordCache),
      mapLookup st.wordCache (toLowerStr w) = some cd →
      collectExamples cd.Definitions = [] →
      generateExampleSentencesContent cfg st picks w = "") ∧
    (∀ (cfg : OutputConfig) (st : ResolverState) (picks : List Nat) (w : String)
        (cd : WordCache),
      0 ≤ cfg.MaxExampleSentences →
      toLowerStr w ∉ st.wordUnknown →
      mapLookup st.wordCache (toLowerStr w) = some cd →
      cd.Definitions ≠ [] →
      collectExamples cd.Definitions ≠ [] →
      ('\n' : Char) ∉ (capitalizePhrase (toLowerStr w)).data →
      (capitalizePhrase (toLowerStr w)).data.all Char.isWhitespace = false →
      (∀ e ∈ collectExamples cd.Definitions, ('\n' : Char) ∉ e.data ∧
        e.data.all Char.isWhitespace = false) →
      selectedExamples cfg.MaxExampleSentences (collectExamples cd.Definitions)
        picks ≠ [] ∧
      generateExampleSentencesContent cfg st picks w =
        strIntercalate "\n" (capitalizePhrase (toLowerStr w) ::
          (selectedExamples cfg.MaxExampleSentences
            (collectExamples cd.Definitions) picks).map (fun e => "\t" ++ e))) := by
  refine ⟨?_, ?_, ?_, ?_, ?_⟩
  · intro cfg st picks w hu
    simp [generateExampleSentencesContent]
    intro h
    exact absurd hu h
  · intro cfg st picks w hl
    simp [generateExampleSentencesContent, hl]
  · intro cfg st picks w cd hl hd
    simp [generateExampleSentencesContent, hl, hd]
  · intro cfg st picks w cd hl hex
    simp [generateExampleSentencesContent, hl, hex]
  · intro cfg st picks w cd hmax hnu hl hdefs hex hcap1 hcap2 hclean
    have hsel_ne : selectedExamples cfg.MaxExampleSentences
        (collectExamples cd.Definitions) picks ≠ [] := by
      unfold selectedExamples
      split_ifs with hcond
      · exact hex
      · push_neg at hcond
        have h1 : 1 ≤ cfg.MaxExampleSentences := by omega
        have h2 : cfg.MaxExampleSentences <
            ((collectExamples cd.Definitions).length : Int) := by omega
        have hlen : (sampleLoop cfg.MaxExampleSentences.toNat
            (collectExamples cd.Definitions) picks).length =
            cfg.MaxExampleSentences.toNat :=
          sampleLoop_length _ _ _ (by omega)
        intro hnil
        rw [hnil] at hlen
        simp at hlen
        omega
    refine ⟨hsel_ne, ?_⟩
    have hshape : generateExampleSentencesContent cfg st picks w =
        removeEmptyLines ((capitalizePhrase (toLowerStr w) ++ "\n") ++
          strJoin ((selectedExamples cfg.MaxExampleSentences
            (collectExamples cd.Definitions) picks).map
            (fun e => "\t" ++ e ++ "\n"))) := by
      simp [generateExampleSentencesContent, hl, hdefs, hex]
      intro h
      exact absurd h hnu
    rw [hshape]
    exact removeEmptyLines_header_items _ _ hcap1 hcap2
      (fun e he => hclean e (selectedExamples_subset _ _ _ e he))

/-- The default output configuration with `maxExampleSentences: -1`, a value
the YAML config can hold since the field is a Go `int`. -/
def negMaxConfig : OutputConfig :=
  { defaultOutputConfig with MaxExampleSentences := -1 }

/-- A state whose positive cache holds the word "w" with one example-bearing
sense. -/
def cachedWState : ResolverState :=
  { wordCache := [("w", sampleRecord)], wordUnknown := [],
    savedCache := [("w", sampleRecord)], savedUnknown := [] }

/-- C9 counterexample: with `maxExampleSentences = -1`, a cached word with a
real example produces the bare header `"W"` — a non-empty output holding a
word header line with NO example line (the Go sampling loop
`for i := 0; i < maxExamples` runs zero times for a negative bound). -/
theorem generateExampleSentences_bare_header_counterexample :
    generateExampleSentencesContent negMaxConfig cachedWState [] "w" = "W" ∧
    generateExampleSentencesContent negMaxConfig cachedWState [] "w" ≠ "" := by
  decide

/-- C9 witness: the spec theorem's positive half applied to the cached word
"w" under the default configuration — the output is the header plus one
tab-indented example line. -/
theorem generateExampleSentences_spec_witness :
    selectedExamples defaultOutputConfig.MaxExampleSentences
      (collectExamples sampleRecord.Definitions) [] ≠ [] ∧
    generateExampleSentencesContent defaultOutputConfig cachedWState [] "w" =
      strIntercalate "\n" (capitalizePhrase (toLowerStr "w") ::
        (selectedExamples defaultOutputConfig.MaxExampleSentences
          (collectExamples sampleRecord.Definitions) []).map
          (fun e => "\t" ++ e)) :=
  generateExampleSentences_spec.2.2.2.2 defaultOutputConfig cachedWState [] "w"
    sampleRecord (by decide) (by decide) (by decide) (by decide) (by decide)
    (by decide) (by decide) (by decide)

end EWC
